import Mathlib

/-!
Shallow embedding of the chart/data core of `src/main.cpp` (GTK4 dashboard):
the mock air-quality generator `get_mock_data`, the status-tier table, the
live rolling series updated by `on_live_tick`, the live-data accessor
`get_live_data`, the fallback samplers, and the chart renderer
`on_draw_chart` (hit-testing, tooltip placement, command emission).

Machine integers are modelled as `Nat`/`Int` with explicit `% 2^32` where the
C `unsigned int` wraps; C `double` quantities are modelled over `ℚ` (the
arithmetic in question is exact decimal scaling, comparisons and absolute
values).
-/

/-- `AirQualityData` struct from main.cpp lines 21-28. -/
structure AirQualityData where
  city : String
  aqi : ℤ
  status : String
  pm25 : ℚ
  pm10 : ℚ
  history : List ℤ
  deriving Repr

/-- One step of the character hash `hash = hash * 31 + *p` on a wrapping
`unsigned int` (main.cpp line 40). -/
def hashStep (h : ℕ) (c : Char) : ℕ :=
  (h * 31 + c.toNat) % 2 ^ 32

/-- The whole name hash of main.cpp line 40, starting from 0. -/
def strHash (s : String) : ℕ :=
  s.toList.foldl hashStep 0

/-- LCG state update `seed = seed * 1103515245 + 12345` on a wrapping
`unsigned int` (main.cpp line 45). -/
def lcgNext (s : ℕ) : ℕ :=
  (s * 1103515245 + 12345) % 2 ^ 32

/-- LCG output `(unsigned)(seed / 65536) % 32768` (main.cpp line 46). -/
def lcgOut (s : ℕ) : ℕ :=
  (s / 65536) % 32768

/-- Fluctuation derived from one LCG output: `(my_rand() % 41) - 20`
(main.cpp line 65).  The C expression wraps in `unsigned` and is converted
back to `int`; the resulting value is `(r % 41) - 20` over `ℤ`. -/
def fluctOf (r : ℕ) : ℤ :=
  ((r % 41 : ℕ) : ℤ) - 20

/-- Status string from the AQI value, the `if`/`else` chain of
main.cpp lines 51-55. -/
def aqi_status (a : ℤ) : String :=
  if a ≤ 50 then "Good 🟢"
  else if a ≤ 100 then "Satisfactory 🟡"
  else if a ≤ 200 then "Moderate 🟠"
  else if a ≤ 300 then "Poor 🔴"
  else "Very Bad 🔴🔴🔴"

/-- The history loop of main.cpp lines 62-70: each iteration advances the
seed, derives a fluctuation, adds it to `current`, clamps at 0, and inserts
the value at the front of the accumulated history
(`data.history.insert(data.history.begin(), val)`). -/
def mockHistLoop : ℕ → ℕ → ℤ → List ℤ → List ℤ
  | 0, _, _, hist => hist
  | n + 1, seed, current, hist =>
      let seed2 := lcgNext seed
      let fl := fluctOf (lcgOut seed2)
      let val0 := current + fl
      let val := if val0 < 0 then 0 else val0
      mockHistLoop n seed2 val (val :: hist)

/-- `get_mock_data` (main.cpp lines 34-73): hash the city name, derive the
base AQI `(hash % 300) + 50`, the status string, the two readings
`aqi * 0.6` and `aqi * 1.2`, and the 24-entry history walk. -/
def get_mock_data (city : String) : AirQualityData :=
  let hash := strHash city
  let aqi : ℤ := ((hash % 300 : ℕ) : ℤ) + 50
  { city := city
    aqi := aqi
    status := aqi_status aqi
    pm25 := (aqi : ℚ) * (6 / 10)
    pm10 := (aqi : ℚ) * (12 / 10)
    history := mockHistLoop 24 hash aqi [] }

/-! Characterisation layer for the mock history walk (spec §4.1): the seed
after `n` updates, the fluctuation used at step `n`, and the walked value
after `n` steps. -/

/-- Seed after `n` LCG updates starting from `s`. -/
def seedAfter (s : ℕ) : ℕ → ℕ
  | 0 => s
  | n + 1 => lcgNext (seedAfter s n)

/-- Fluctuation used at step `n ≥ 1` of the walk seeded by `s`. -/
def fluctAt (s : ℕ) (n : ℕ) : ℤ :=
  fluctOf (lcgOut (seedAfter s n))

/-- Value after `n` steps of the clamped random walk: step `n+1` adds
`fluctAt s (n+1)` to the previous value and clamps at 0. -/
def walkVal (s : ℕ) (c : ℤ) : ℕ → ℤ
  | 0 => c
  | n + 1 => max 0 (walkVal s c n + fluctAt s (n + 1))

/-! ### Live series state (main.cpp lines 77-80 and 526-551) -/

/-- The three rolling histories `history_cpu`, `history_mem`, `history_net`. -/
structure LiveState where
  history_cpu : List ℤ
  history_mem : List ℤ
  history_net : List ℤ
  deriving Repr

/-- Startup state: each history is constructed with 24 zero samples
(`std::vector<int> history_cpu(24, 0)`, main.cpp lines 77-79). -/
def initLiveState : LiveState :=
  { history_cpu := List.replicate 24 0
    history_mem := List.replicate 24 0
    history_net := List.replicate 24 0 }

/-- One append of `on_live_tick` (main.cpp lines 532-533 etc.): if the
series already holds 24 or more samples, erase the front element, then
push the new sample at the back. -/
def push24 (h : List ℤ) (v : ℤ) : List ℤ :=
  (if 24 ≤ h.length then h.drop 1 else h) ++ [v]

/-- The series mutations performed by one `on_live_tick` call
(main.cpp lines 526-551), given the three sampled values. -/
def on_live_tick_update (st : LiveState) (cpu mem net : ℤ) : LiveState :=
  { history_cpu := push24 st.history_cpu cpu
    history_mem := push24 st.history_mem mem
    history_net := push24 st.history_net net }

/-! ### strstr dispatch and `get_live_data` (main.cpp lines 172-192) -/

/-- Does `hay` start with `needle`? (helper for the strstr embedding). -/
def leadMatch : List Char → List Char → Bool
  | _, [] => true
  | [], _ :: _ => false
  | a :: as, b :: bs => a = b && leadMatch as bs

/-- C `strstr(hay, needle) != NULL`: does `needle` occur in `hay`? -/
def hasSub : List Char → List Char → Bool
  | [], needle => needle.isEmpty
  | a :: t, needle => leadMatch (a :: t) needle || hasSub t needle

/-- String-level strstr test. -/
def strstrB (hay needle : String) : Bool :=
  hasSub hay.toList needle.toList

/-- `get_live_data` (main.cpp lines 172-192): pick the history by substring
match on the type name, take the last sample as the current value (0 when
empty), and fill the summary fields with `"Live"`, `aqi * 0.5`, `aqi * 1.1`. -/
def get_live_data (ty : String) (st : LiveState) : AirQualityData :=
  let hist :=
    if strstrB ty "CPU" then st.history_cpu
    else if strstrB ty "Mem" then st.history_mem
    else st.history_net
  let aqi : ℤ := (hist.getLast?).getD 0
  { city := ty
    aqi := aqi
    status := "Live"
    pm25 := (aqi : ℚ) * (5 / 10)
    pm10 := (aqi : ℚ) * (11 / 10)
    history := hist }

/-! ### Fallback live samplers (main.cpp lines 166-170, non-Windows) -/

/-- `GetCPULoad` fallback `rand() % 100`; `r` models the nonnegative value
returned by `rand()`. -/
def getCPULoadFallback (r : ℕ) : ℕ := r % 100

/-- `GetMemoryUsage` fallback: the constant `50.0`. -/
def getMemoryUsageFallback : ℚ := 50

/-- `GetNetworkUsage` fallback `rand() % 100`. -/
def getNetworkUsageFallback (r : ℕ) : ℕ := r % 100

/-! ### Chart renderer `on_draw_chart` (main.cpp lines 211-430)

The renderer is modelled as a pure function from the series, the widget
flags, the hover state and the canvas size to the list of drawing commands
it issues, in issue order.  Cairo text measurement is an external
collaborator and enters as the two oracles `textW`/`textH`. -/

/-- The drawing commands the renderer can issue. -/
inductive DrawCmd where
  | paintBG (r g b : ℚ)
  | gridLine (y : ℚ)
  | textLabel (t : String) (x y : ℚ)
  | moveTo (x y : ℚ)
  | lineTo (x y : ℚ)
  | strokeLine
  | fillGradient
  | liveValueLabel (t : String)
  | dashedGuide (x : ℚ)
  | markerCircle (x y : ℚ)
  | tooltipRect (x y w h : ℚ)
  | tooltipText (t : String) (x y : ℚ)
  deriving Repr, DecidableEq

/-- `max_val` computation (main.cpp lines 244-248): maximum of the samples,
floored at the minimum scale 100. -/
def chart_max_val (hist : List ℤ) : ℤ :=
  let m := hist.foldl (fun acc v => if v > acc then v else acc) 0
  if m < 100 then 100 else m

/-- One iteration of the closest-index scan (main.cpp lines 366-373):
update `(index, min_dist)` when the distance at sample `i` is strictly
below the current minimum. -/
def hitStep (margin_x step_x : ℚ) (mouse_x : ℤ) (acc : ℤ × ℚ) (i : ℕ) : ℤ × ℚ :=
  let x := margin_x + (i : ℚ) * step_x
  let dist := |x - (mouse_x : ℚ)|
  if dist < acc.2 then ((i : ℤ), dist) else acc

/-- The closest-index scan (main.cpp lines 362-373), starting from
`index = -1`, `min_dist = 9999`. -/
def hitScan (n : ℕ) (margin_x step_x : ℚ) (mouse_x : ℤ) : ℤ × ℚ :=
  (List.range n).foldl (hitStep margin_x step_x mouse_x) (-1, 9999)

/-- The overlay guard `index >= 0 && min_dist < step_x / 1.5`
(main.cpp line 375). -/
def hoverSelected (n : ℕ) (margin_x step_x : ℚ) (mouse_x : ℤ) : Bool :=
  let r := hitScan n margin_x step_x mouse_x
  decide (0 ≤ r.1) && decide (r.2 < step_x / (3 / 2))

/-- Tooltip placement (main.cpp lines 412-419): default box at the marker's
upper-right; flipped to the left of the marker when the right side would
pass `width - 20`; flipped below the marker when the top would pass the
`margin_y = 20` line. -/
def tooltip_box (x y bw bh width : ℚ) : ℚ × ℚ :=
  let bx0 := x + 10
  let by0 := y - 10 - bh
  let bx := if bx0 + bw > width - 20 then x - 10 - bw else bx0
  let byv := if by0 < 20 then y + 10 else by0
  (bx, byv)

/-- The big bold current-value label text (main.cpp lines 309-315 and
336-342): `%d%%` for CPU/Memory, `%d <rate unit>` for Network, bare `%d`
otherwise.  The source contains this block twice, once with rate unit
`MB/s` and once with `Mbps`. -/
def liveLabelText (live_type : Option String) (v : ℤ) (rateUnit : String) : String :=
  match live_type with
  | some ty =>
      if strstrB ty "CPU" || strstrB ty "Memory" then toString v ++ "%"
      else if strstrB ty "Network" then toString v ++ " " ++ rateUnit
      else toString v
  | none => toString v

/-- The tooltip unit suffix (main.cpp lines 399-404). -/
def tooltipUnit (is_live : Bool) (live_type : Option String) : String :=
  if is_live then
    match live_type with
    | some ty =>
        if strstrB ty "Network" then " Mbps"
        else if strstrB ty "CPU" || strstrB ty "Memory" then "%"
        else ""
    | none => ""
  else ""

/-- `on_draw_chart` (main.cpp lines 211-430) as a command trace.  The
widget-data dispatch that picks the series (lines 219-229) happens before
drawing; `hist` is the chosen series, and the two early `return`s on an
empty history (lines 227 and 231) are the leading guard.  Note line 279
computes `step_x = graph_w / (hist.size() - 1)` with no guard against a
single-sample series; over `ℚ` the division by zero yields 0 where the C
double computes an infinity. -/
def on_draw_chart (hist : List ℤ) (is_live : Bool) (live_type : Option String)
    (is_hovering : Bool) (hover_x : ℤ) (width height : ℤ)
    (textW textH : String → ℚ) : List DrawCmd :=
  if hist.isEmpty then []
  else
    let margin_x : ℚ := 40
    let margin_y : ℚ := 20
    let graph_w : ℚ := (width : ℚ) - margin_x - 20
    let graph_h : ℚ := (height : ℚ) - 2 * margin_y
    let max_val := chart_max_val hist
    let gridCmds := (List.range 5).flatMap (fun i =>
      let y := margin_y + graph_h - ((i : ℚ) * graph_h / 4)
      let label := toString (max_val * (i : ℤ) / 4)
      [DrawCmd.gridLine y,
       DrawCmd.textLabel label (margin_x - textW label - 5) (y + textH label / 2 - 2)])
    let step_x : ℚ := graph_w / ((hist.length : ℚ) - 1)
    let ptX := fun i : ℕ => margin_x + (i : ℚ) * step_x
    let ptY := fun i : ℕ =>
      margin_y + graph_h - ((hist.getD i 0 : ℚ) / (max_val : ℚ) * graph_h)
    let lineCmds := (List.range hist.length).map (fun i =>
      if i = 0 then DrawCmd.moveTo (ptX i) (ptY i) else DrawCmd.lineTo (ptX i) (ptY i))
    let fillCmds := [DrawCmd.lineTo (margin_x + graph_w) (margin_y + graph_h),
                     DrawCmd.lineTo margin_x (margin_y + graph_h),
                     DrawCmd.fillGradient]
    let liveCmds :=
      if is_live then
        let cur := (hist.getLast?).getD 0
        [DrawCmd.liveValueLabel (liveLabelText live_type cur "MB/s"),
         DrawCmd.liveValueLabel (liveLabelText live_type cur "Mbps")]
      else []
    let hoverCmds :=
      if is_hovering then
        let r := hitScan hist.length margin_x step_x hover_x
        if 0 ≤ r.1 ∧ r.2 < step_x / (3 / 2) then
          let index := r.1.toNat
          let x := ptX index
          let y := ptY index
          let tooltip := toString (hist.getD index 0) ++ tooltipUnit is_live live_type
          let bw := textW tooltip + 10
          let bh := textH tooltip + 10
          let bp := tooltip_box x y bw bh (width : ℚ)
          [DrawCmd.dashedGuide x, DrawCmd.markerCircle x y,
           DrawCmd.tooltipRect bp.1 bp.2 bw bh,
           DrawCmd.tooltipText tooltip (bp.1 + 5) (bp.2 + bh - 5)]
        else []
      else []
    DrawCmd.paintBG (95 / 100) (95 / 100) (95 / 100) ::
      gridCmds ++ lineCmds ++ [DrawCmd.strokeLine] ++ fillCmds ++ liveCmds ++ hoverCmds

/-! ## Helper lemmas -/

theorem clamp_eq_max (x : ℤ) : (if x < 0 then 0 else x) = max 0 x := by
  rw [max_def]; split_ifs <;> omega

theorem mockHistLoop_append : ∀ (n s : ℕ) (c : ℤ) (h : List ℤ),
    mockHistLoop n s c h = mockHistLoop n s c [] ++ h
  | 0, s, c, h => by simp [mockHistLoop]
  | n + 1, s, c, h => by
      simp only [mockHistLoop]
      rw [mockHistLoop_append n, mockHistLoop_append n _ _ [_]]
      simp

theorem mockHistLoop_length : ∀ (n s : ℕ) (c : ℤ),
    (mockHistLoop n s c []).length = n
  | 0, _, _ => rfl
  | n + 1, s, c => by
      simp only [mockHistLoop]
      rw [mockHistLoop_append]
      simp [mockHistLoop_length n]

theorem seedAfter_lcgNext (n s : ℕ) : seedAfter (lcgNext s) n = seedAfter s (n + 1) := by
  induction n with
  | zero => simp [seedAfter]
  | succ n ih =>
      show lcgNext (seedAfter (lcgNext s) n) = lcgNext (seedAfter s (n + 1))
      rw [ih]

theorem walkVal_shift (n s : ℕ) (c : ℤ) :
    walkVal (lcgNext s) (max 0 (c + fluctAt s 1)) n = walkVal s c (n + 1) := by
  induction n with
  | zero => simp [walkVal]
  | succ n ih =>
      show max 0 _ = walkVal s c (n + 1 + 1)
      rw [ih]
      show _ = max 0 (walkVal s c (n + 1) + fluctAt s (n + 1 + 1))
      unfold fluctAt
      rw [seedAfter_lcgNext]

theorem mockHistLoop_getD (n : ℕ) : ∀ (s : ℕ) (c : ℤ) (i : ℕ), i < n →
    (mockHistLoop n s c []).getD i 0 = walkVal s c (n - i) := by
  induction n with
  | zero => intro s c i hi; exact absurd hi (Nat.not_lt_zero _)
  | succ n ih =>
      intro s c i hi
      have hfl : fluctOf (lcgOut (lcgNext s)) = fluctAt s 1 := rfl
      simp only [mockHistLoop]
      rw [mockHistLoop_append, clamp_eq_max, hfl]
      have hlen := mockHistLoop_length n (lcgNext s) (max 0 (c + fluctAt s 1))
      rcases Nat.lt_or_ge i n with hin | hin
      · rw [List.getD_append _ _ _ _ (by rw [hlen]; exact hin)]
        rw [ih _ _ i hin, walkVal_shift]
        congr 1
        omega
      · have hieq : i = n := by omega
        rw [List.getD_append_right _ _ _ _ (by rw [hlen]; omega)]
        rw [hlen, hieq]
        simp only [Nat.sub_self, List.getD_cons_zero]
        have h1 : n + 1 - n = 1 := by omega
        rw [h1]
        exact walkVal_shift 0 s c

theorem fluctOf_bounds (r : ℕ) : -20 ≤ fluctOf r ∧ fluctOf r ≤ 20 := by
  unfold fluctOf
  have h := Nat.mod_lt r (show 0 < 41 by norm_num)
  omega

theorem push24_length (h : List ℤ) (v : ℤ) (hl : h.length ≤ 24) :
    (push24 h v).length ≤ 24 := by
  unfold push24
  split_ifs with h24 <;> simp <;> omega

theorem foldl_tick_lengths (ticks : List (ℤ × ℤ × ℤ)) : ∀ (st : LiveState),
    st.history_cpu.length ≤ 24 → st.history_mem.length ≤ 24 →
    st.history_net.length ≤ 24 →
    ((ticks.foldl (fun st t => on_live_tick_update st t.1 t.2.1 t.2.2) st).history_cpu.length ≤ 24 ∧
     (ticks.foldl (fun st t => on_live_tick_update st t.1 t.2.1 t.2.2) st).history_mem.length ≤ 24 ∧
     (ticks.foldl (fun st t => on_live_tick_update st t.1 t.2.1 t.2.2) st).history_net.length ≤ 24) := by
  induction ticks with
  | nil => intro st h1 h2 h3; exact ⟨h1, h2, h3⟩
  | cons t ts ih =>
      intro st h1 h2 h3
      exact ih _ (push24_length _ _ h1) (push24_length _ _ h2) (push24_length _ _ h3)

/-- C1: every live series stays within capacity 24 after any number of
ticks from the startup state, and an append to a series at capacity
removes exactly the front (oldest) element, appends the new sample at the
back, and leaves the remaining 23 elements in their relative order. -/
theorem live_series_fifo_capacity (ticks : List (ℤ × ℤ × ℤ)) :
    ((ticks.foldl (fun st t => on_live_tick_update st t.1 t.2.1 t.2.2)
        initLiveState).history_cpu.length ≤ 24 ∧
     (ticks.foldl (fun st t => on_live_tick_update st t.1 t.2.1 t.2.2)
        initLiveState).history_mem.length ≤ 24 ∧
     (ticks.foldl (fun st t => on_live_tick_update st t.1 t.2.1 t.2.2)
        initLiveState).history_net.length ≤ 24) ∧
    ∀ (h : List ℤ) (v : ℤ), h.length = 24 →
      ∃ x t, h = x :: t ∧ t.length = 23 ∧ push24 h v = t ++ [v] := by
  constructor
  · exact foldl_tick_lengths ticks initLiveState (by simp [initLiveState])
      (by simp [initLiveState]) (by simp [initLiveState])
  · intro h v hl
    match h, hl with
    | x :: t, hl =>
        refine ⟨x, t, rfl, by simpa using hl, ?_⟩
        unfold push24
        rw [if_pos (by rw [hl])]
        simp

/-- Witness for C1 at one tick and a concrete full series. -/
theorem live_series_fifo_capacity_witness :
    push24 (List.replicate 24 (0 : ℤ)) 5 = List.replicate 23 (0 : ℤ) ++ [5] ∧
    ([((1 : ℤ), (2 : ℤ), (3 : ℤ))].foldl
      (fun st t => on_live_tick_update st t.1 t.2.1 t.2.2)
      initLiveState).history_cpu.length ≤ 24 := by
  have H := live_series_fifo_capacity [((1 : ℤ), (2 : ℤ), (3 : ℤ))]
  obtain ⟨x, t, hxt, _, hp⟩ := H.2 (List.replicate 24 (0 : ℤ)) 5 (by simp)
  have h24 : List.replicate 24 (0 : ℤ) = 0 :: List.replicate 23 (0 : ℤ) := rfl
  rw [h24] at hxt
  injection hxt with hx ht
  constructor
  · rw [hp, ← ht]
  · exact H.1.1

/-- C2: the mock generator is deterministic: two calls with the same name
produce bit-identical results (all fields equal), including the same
24-element history. -/
theorem mock_generator_deterministic (city : String) :
    get_mock_data city = get_mock_data city ∧
    (get_mock_data city).history.length = 24 := by
  refine ⟨rfl, ?_⟩
  simp only [get_mock_data]
  exact mockHistLoop_length 24 _ _

/-- C3: the base value is `(hash % 300) + 50` (so in `[50, 349]`); the
history holds exactly 24 samples, index `i` holding the `(24 - i)`-th
value of the clamped random walk from the base (so each value was inserted
at the front, and the base itself is never appended); each walk step adds
a fluctuation `(LCG output % 41) - 20 ∈ [-20, 20]` and clamps at 0. -/
theorem mock_generator_base_and_history (city : String) :
    (get_mock_data city).aqi = ((strHash city % 300 : ℕ) : ℤ) + 50 ∧
    50 ≤ (get_mock_data city).aqi ∧ (get_mock_data city).aqi ≤ 349 ∧
    (get_mock_data city).history.length = 24 ∧
    (∀ i : ℕ, i < 24 →
      (get_mock_data city).history.getD i 0 =
        walkVal (strHash city) ((get_mock_data city).aqi) (24 - i)) ∧
    (∀ (s : ℕ) (c : ℤ) (n : ℕ),
      walkVal s c (n + 1) = max 0 (walkVal s c n + fluctAt s (n + 1))) ∧
    (∀ r : ℕ, -20 ≤ fluctOf r ∧ fluctOf r ≤ 20) := by
  have hmod : strHash city % 300 < 300 := Nat.mod_lt _ (by norm_num)
  refine ⟨rfl, by simp [get_mock_data]; omega, by simp [get_mock_data]; omega, ?_, ?_, ?_, ?_⟩
  · simp only [get_mock_data]
    exact mockHistLoop_length 24 _ _
  · intro i hi
    simp only [get_mock_data]
    exact mockHistLoop_getD 24 _ _ i hi
  · intro s c n; rfl
  · exact fluctOf_bounds

/-- Witness for C3 at city "New Delhi" and index 0. -/
theorem mock_generator_base_and_history_witness :
    (get_mock_data "New Delhi").history.getD 0 0 =
      walkVal (strHash "New Delhi") ((get_mock_data "New Delhi").aqi) 24 ∧
    50 ≤ (get_mock_data "New Delhi").aqi := by
  have H := mock_generator_base_and_history "New Delhi"
  exact ⟨H.2.2.2.2.1 0 (by norm_num), H.2.1⟩

/-- C4: the status tiers have inclusive upper bounds at 50, 100, 200, 300,
and the generator's status field is exactly the tier of its base AQI. -/
theorem aqi_status_tier_bounds (a : ℤ) :
    (a ≤ 50 → aqi_status a = "Good 🟢") ∧
    (50 < a → a ≤ 100 → aqi_status a = "Satisfactory 🟡") ∧
    (100 < a → a ≤ 200 → aqi_status a = "Moderate 🟠") ∧
    (200 < a → a ≤ 300 → aqi_status a = "Poor 🔴") ∧
    (300 < a → aqi_status a = "Very Bad 🔴🔴🔴") ∧
    (∀ city : String, (get_mock_data city).status =
      aqi_status (get_mock_data city).aqi) := by
  refine ⟨?_, ?_, ?_, ?_, ?_, fun city => rfl⟩ <;>
    (intros; unfold aqi_status; split_ifs <;> first | rfl | omega)

/-- Witness for C4 at the eight boundary values of the claim. -/
theorem aqi_status_tier_bounds_witness :
    aqi_status 50 = "Good 🟢" ∧ aqi_status 51 = "Satisfactory 🟡" ∧
    aqi_status 100 = "Satisfactory 🟡" ∧ aqi_status 101 = "Moderate 🟠" ∧
    aqi_status 200 = "Moderate 🟠" ∧ aqi_status 201 = "Poor 🔴" ∧
    aqi_status 300 = "Poor 🔴" ∧ aqi_status 301 = "Very Bad 🔴🔴🔴" :=
  ⟨(aqi_status_tier_bounds 50).1 (by norm_num),
   (aqi_status_tier_bounds 51).2.1 (by norm_num) (by norm_num),
   (aqi_status_tier_bounds 100).2.1 (by norm_num) (by norm_num),
   (aqi_status_tier_bounds 101).2.2.1 (by norm_num) (by norm_num),
   (aqi_status_tier_bounds 200).2.2.1 (by norm_num) (by norm_num),
   (aqi_status_tier_bounds 201).2.2.2.1 (by norm_num) (by norm_num),
   (aqi_status_tier_bounds 300).2.2.2.1 (by norm_num) (by norm_num),
   (aqi_status_tier_bounds 301).2.2.2.2.1 (by norm_num)⟩

theorem hitScan_zero (m s : ℚ) (mx : ℤ) : hitScan 0 m s mx = (-1, 9999) := rfl

theorem hitScan_succ (n : ℕ) (m s : ℚ) (mx : ℤ) :
    hitScan (n + 1) m s mx = hitStep m s mx (hitScan n m s mx) n := by
  unfold hitScan
  rw [List.range_succ, List.foldl_append]
  rfl

theorem hitScan_spec (n : ℕ) (m s : ℚ) (mx : ℤ) :
    ((hitScan n m s mx).1 = -1 ∧ (hitScan n m s mx).2 = 9999 ∧
      ∀ i : ℕ, i < n → 9999 ≤ |m + (i : ℚ) * s - (mx : ℚ)|) ∨
    (∃ j : ℕ, (hitScan n m s mx).1 = (j : ℤ) ∧ j < n ∧
      (hitScan n m s mx).2 = |m + (j : ℚ) * s - (mx : ℚ)| ∧
      (hitScan n m s mx).2 < 9999 ∧
      (∀ i : ℕ, i < n → (hitScan n m s mx).2 ≤ |m + (i : ℚ) * s - (mx : ℚ)|) ∧
      (∀ i : ℕ, i < j → (hitScan n m s mx).2 < |m + (i : ℚ) * s - (mx : ℚ)|)) := by
  induction n with
  | zero =>
      left
      refine ⟨rfl, rfl, ?_⟩
      intro i hi
      exact absurd hi (Nat.not_lt_zero _)
  | succ n ih =>
      rw [hitScan_succ]
      unfold hitStep
      by_cases hlt : |m + (n : ℚ) * s - (mx : ℚ)| < (hitScan n m s mx).2
      · rw [if_pos hlt]
        right
        rcases ih with ⟨h1, h2, h3⟩ | ⟨j, hj1, hj2, hj3, hj4, hj5, hj6⟩
        · refine ⟨n, rfl, Nat.lt_succ_self n, rfl, by rw [← h2]; exact hlt, ?_, ?_⟩
          · intro i hi
            rcases Nat.lt_succ_iff_lt_or_eq.mp hi with hin | hie
            · have := h3 i hin
              rw [h2] at hlt
              simp only
              linarith
            · subst hie; simp
          · intro i hin
            have := h3 i hin
            rw [h2] at hlt
            simp only
            linarith
        · refine ⟨n, rfl, Nat.lt_succ_self n, rfl, lt_trans hlt hj4, ?_, ?_⟩
          · intro i hi
            rcases Nat.lt_succ_iff_lt_or_eq.mp hi with hin | hie
            · have := hj5 i hin
              simp only
              linarith
            · subst hie; simp
          · intro i hin
            have := hj5 i hin
            simp only
            linarith
      · rw [if_neg hlt]
        rcases ih with ⟨h1, h2, h3⟩ | ⟨j, hj1, hj2, hj3, hj4, hj5, hj6⟩
        · left
          refine ⟨h1, h2, ?_⟩
          intro i hi
          rcases Nat.lt_succ_iff_lt_or_eq.mp hi with hin | hie
          · exact h3 i hin
          · subst hie; rw [h2] at hlt; linarith
        · right
          refine ⟨j, hj1, Nat.lt_succ_of_lt hj2, hj3, hj4, ?_, hj6⟩
          intro i hi
          rcases Nat.lt_succ_iff_lt_or_eq.mp hi with hin | hie
          · exact hj5 i hin
          · subst hie; linarith

theorem hoverSelected_iff (n : ℕ) (m s : ℚ) (mx : ℤ) :
    hoverSelected n m s mx = true ↔
    ∃ i : ℕ, i < n ∧ |m + (i : ℚ) * s - (mx : ℚ)| < 9999 ∧
      |m + (i : ℚ) * s - (mx : ℚ)| < s / (3 / 2) := by
  unfold hoverSelected
  simp only [Bool.and_eq_true, decide_eq_true_eq]
  rcases hitScan_spec n m s mx with ⟨h1, h2, h3⟩ | ⟨j, hj1, hj2, hj3, hj4, hj5, hj6⟩
  · constructor
    · rintro ⟨ha, _⟩
      rw [h1] at ha
      norm_num at ha
    · rintro ⟨i, hi, hd, _⟩
      have := h3 i hi
      linarith
  · constructor
    · rintro ⟨_, hb⟩
      exact ⟨j, hj2, by rw [← hj3]; exact hj4, by rw [← hj3]; exact hb⟩
    · rintro ⟨i, hi, _, hd⟩
      refine ⟨by rw [hj1]; exact Int.ofNat_nonneg j, ?_⟩
      have := hj5 i hi
      linarith

theorem hitScan_at_sample (n : ℕ) (m s : ℚ) (mx : ℤ) (k : ℕ)
    (hk : k < n) (hs : 0 < s) (hmx : (mx : ℚ) = m + (k : ℚ) * s) :
    (hitScan n m s mx).1 = (k : ℤ) ∧ (hitScan n m s mx).2 = 0 := by
  have hdk : |m + (k : ℚ) * s - (mx : ℚ)| = 0 := by rw [hmx]; ring_nf; simp
  rcases hitScan_spec n m s mx with ⟨h1, h2, h3⟩ | ⟨j, hj1, hj2, hj3, hj4, hj5, hj6⟩
  · have := h3 k hk
    rw [hdk] at this
    linarith
  · have hle := hj5 k hk
    rw [hdk] at hle
    have hge : 0 ≤ (hitScan n m s mx).2 := by rw [hj3]; exact abs_nonneg _
    have h20 : (hitScan n m s mx).2 = 0 := le_antisymm hle hge
    have hdj : |m + (j : ℚ) * s - (mx : ℚ)| = 0 := by rw [← hj3]; exact h20
    have hjk : j = k := by
      rw [hmx] at hdj
      have hq : (j : ℚ) * s = (k : ℚ) * s := by
        have := abs_eq_zero.mp hdj
        linarith
      have := mul_right_cancel₀ (ne_of_gt hs) hq
      exact_mod_cast this
    exact ⟨by rw [hj1, hjk], h20⟩

/-- C5 (code bug): a series with exactly one sample passes the renderer's
only guard, the empty check (main.cpp line 231), and reaches the
segment-step computation of line 279 with divisor
`history.size() - 1 = 0`: the renderer emits drawing commands instead of
guarding the division. -/
theorem single_sample_zero_divisor :
    (([7] : List ℤ).isEmpty = false) ∧
    ((([7] : List ℤ).length : ℚ) - 1 = 0) ∧
    on_draw_chart [7] false none false 0 300 150 (fun _ => 6) (fun _ => 8) ≠ [] := by
  refine ⟨rfl, by norm_num, ?_⟩
  simp [on_draw_chart]

/-- C6 counterexample: with 2 samples, `margin_x = 40`, `step_x = 39940`
(canvas width 40000) and pointer x 10040, the nearest sample distance is
10000, strictly below the snap tolerance `step_x / 1.5 ≈ 26627`, yet the
overlay is suppressed because the scan's initial `min_dist = 9999`
sentinel is below every distance: the claimed equivalence "overlay iff
nearest distance < step_x / 1.5" fails at this input. -/
theorem hover_sentinel_counterexample :
    hoverSelected 2 40 39940 10040 = false ∧
    min (|(40 : ℚ) + 0 * 39940 - 10040|) (|(40 : ℚ) + 1 * 39940 - 10040|) <
      39940 / (3 / 2) := by
  have e0 : |(40 : ℚ) + ((0 : ℕ) : ℚ) * 39940 - ((10040 : ℤ) : ℚ)| = 10000 := by
    have h : (40 : ℚ) + ((0 : ℕ) : ℚ) * 39940 - ((10040 : ℤ) : ℚ) = -10000 := by
      push_cast; ring
    rw [h, abs_neg, abs_of_nonneg (by norm_num : (0 : ℚ) ≤ 10000)]
  have e1 : |(40 : ℚ) + ((1 : ℕ) : ℚ) * 39940 - ((10040 : ℤ) : ℚ)| = 29940 := by
    have h : (40 : ℚ) + ((1 : ℕ) : ℚ) * 39940 - ((10040 : ℤ) : ℚ) = 29940 := by
      push_cast; ring
    rw [h, abs_of_nonneg (by norm_num : (0 : ℚ) ≤ 29940)]
  have hinner : hitStep 40 39940 10040 (-1, 9999) 0 = (-1, 9999) := by
    unfold hitStep
    rw [if_neg (by rw [show ((-1 : ℤ), (9999 : ℚ)).2 = 9999 from rfl, e0]; norm_num)]
  have houter : hitStep 40 39940 10040 (-1, 9999) 1 = (-1, 9999) := by
    unfold hitStep
    rw [if_neg (by rw [show ((-1 : ℤ), (9999 : ℚ)).2 = 9999 from rfl, e1]; norm_num)]
  have hs : hitScan 2 40 39940 10040 = (-1, 9999) := by
    rw [show (2 : ℕ) = 1 + 1 from rfl, hitScan_succ, hitScan_succ, hitScan_zero,
       hinner, houter]
  constructor
  · unfold hoverSelected
    rw [hs]
    simp
  · have h0 : (40 : ℚ) + 0 * 39940 - 10040 = -10000 := by ring
    rw [h0, abs_neg, abs_of_nonneg (by norm_num : (0 : ℚ) ≤ 10000)]
    have h1 : (40 : ℚ) + 1 * 39940 - 10040 = 29940 := by ring
    rw [h1, abs_of_nonneg (by norm_num : (0 : ℚ) ≤ 29940)]
    norm_num

/-- C6 (amended): the overlay is rendered exactly when some sample's
distance to the pointer is below both the snap tolerance `step_x / 1.5`
and the scan's initial sentinel 9999; whenever the scan selects an index
`j`, that index is in range, `min_dist` is exactly sample `j`'s distance
to the pointer, that distance is minimal over all samples, and every
index before `j` is strictly farther (ties break to the smallest index);
a pointer exactly at sample `k`'s x position (with positive spacing)
selects index `k` with distance 0. -/
theorem hover_hit_test_amended (n : ℕ) (m s : ℚ) (mx : ℤ) (_hn : 0 < n) :
    (hoverSelected n m s mx = true ↔
      ∃ i : ℕ, i < n ∧ |m + (i : ℚ) * s - (mx : ℚ)| < 9999 ∧
        |m + (i : ℚ) * s - (mx : ℚ)| < s / (3 / 2)) ∧
    (∀ j : ℕ, (hitScan n m s mx).1 = (j : ℤ) →
      j < n ∧
      (hitScan n m s mx).2 = |m + (j : ℚ) * s - (mx : ℚ)| ∧
      (∀ i : ℕ, i < n → (hitScan n m s mx).2 ≤ |m + (i : ℚ) * s - (mx : ℚ)|) ∧
      (∀ i : ℕ, i < j → (hitScan n m s mx).2 < |m + (i : ℚ) * s - (mx : ℚ)|)) ∧
    (∀ k : ℕ, k < n → 0 < s → (mx : ℚ) = m + (k : ℚ) * s →
      (hitScan n m s mx).1 = (k : ℤ) ∧ (hitScan n m s mx).2 = 0) := by
  refine ⟨hoverSelected_iff n m s mx, ?_, ?_⟩
  · rcases hitScan_spec n m s mx with ⟨h1, _, _⟩ | ⟨j0, hj1, hj2, hj3, _, hj5, hj6⟩
    · intro j hj
      rw [h1] at hj
      exact absurd hj (by omega)
    · intro j hj
      have hjj : j = j0 := by
        rw [hj1] at hj
        exact_mod_cast hj.symm
      subst hjj
      exact ⟨hj2, hj3, hj5, hj6⟩
  · intro k hk hs hmx
    exact hitScan_at_sample n m s mx k hk hs hmx

/-- Witness for C6 (amended) at 24 samples, `margin_x = 40`, `step_x = 10`,
pointer exactly at sample 0: index 0 is selected with distance 0, minimal
in particular against sample 5, and the overlay is shown. -/
theorem hover_hit_test_amended_witness :
    (hitScan 24 40 10 40).1 = 0 ∧ (hitScan 24 40 10 40).2 = 0 ∧
    (hitScan 24 40 10 40).2 ≤ |(40 : ℚ) + ((5 : ℕ) : ℚ) * 10 - ((40 : ℤ) : ℚ)| ∧
    hoverSelected 24 40 10 40 = true := by
  have H := hover_hit_test_amended 24 40 10 (40 : ℤ) (by norm_num)
  have h2 := H.2.2 0 (by norm_num) (by norm_num) (by push_cast; ring)
  have hmin := H.2.1 0 h2.1
  refine ⟨h2.1, h2.2, hmin.2.2.1 5 (by norm_num), ?_⟩
  refine H.1.mpr ⟨0, by norm_num, ?_, ?_⟩ <;>
    · have h : (40 : ℚ) + ((0 : ℕ) : ℚ) * 10 - ((40 : ℤ) : ℚ) = 0 := by push_cast; ring
      rw [h, abs_zero]
      norm_num

/-- C7: under the flip rules, the tooltip box never extends past the right
edge (`box_x + box_w ≤ width`) or the top edge (`0 ≤ box_y`) of the
canvas, for any marker position within the plot region
(`x ≤ width - 20`, `20 ≤ y`) and any nonnegative text extents. -/
theorem tooltip_in_bounds (x y bw bh width : ℚ)
    (hx : x ≤ width - 20) (hy : 20 ≤ y) :
    (tooltip_box x y bw bh width).1 + bw ≤ width ∧
    0 ≤ (tooltip_box x y bw bh width).2 := by
  unfold tooltip_box
  dsimp only
  constructor
  · split_ifs with h1 <;> linarith
  · split_ifs with h1 <;> linarith

/-- Witness for C7 at a concrete marker and canvas. -/
theorem tooltip_in_bounds_witness :
    (tooltip_box 100 30 30 20 300).1 + 30 ≤ 300 ∧
    0 ≤ (tooltip_box 100 30 30 20 300).2 :=
  tooltip_in_bounds 100 30 30 20 300 (by norm_num) (by norm_num)

/-- C8 counterexample: for the live kind "CPU Load" the summary fields are
not absent: `get_live_data` populates the status with the constant
`"Live"` and the readings with `aqi * 0.5` and `aqi * 1.1` (here
`aqi = 10`, so 5 and 11). -/
theorem live_summary_populated_counterexample :
    (get_live_data "CPU Load" ⟨[10], [20], [30]⟩).status = "Live" ∧
    (get_live_data "CPU Load" ⟨[10], [20], [30]⟩).pm25 = 5 ∧
    (get_live_data "CPU Load" ⟨[10], [20], [30]⟩).pm10 = 11 := by
  refine ⟨rfl, ?_, ?_⟩ <;> norm_num [get_live_data, strstrB, hasSub, leadMatch]

/-- C8 (amended): the mock generator's readings are exactly `base * 0.6`
and `base * 1.2`; for live kinds the summary fields are populated, not
absent: status is the constant `"Live"` and the readings are `aqi * 0.5`
and `aqi * 1.1`. -/
theorem summary_readings_spec (city ty : String) (st : LiveState) :
    (get_mock_data city).pm25 = ((get_mock_data city).aqi : ℚ) * (6 / 10) ∧
    (get_mock_data city).pm10 = ((get_mock_data city).aqi : ℚ) * (12 / 10) ∧
    (get_live_data ty st).status = "Live" ∧
    (get_live_data ty st).pm25 = ((get_live_data ty st).aqi : ℚ) * (5 / 10) ∧
    (get_live_data ty st).pm10 = ((get_live_data ty st).aqi : ℚ) * (11 / 10) :=
  ⟨rfl, rfl, rfl, rfl, rfl⟩

/-- C9: invoking the renderer on a series with zero samples is a safe
no-op: it emits no drawing commands, for every widget flag, hover state,
canvas size and text-measurement oracle. -/
theorem empty_series_renders_nothing (is_live : Bool) (live_type : Option String)
    (is_hovering : Bool) (hover_x : ℤ) (width height : ℤ)
    (textW textH : String → ℚ) :
    on_draw_chart [] is_live live_type is_hovering hover_x width height
      textW textH = [] := rfl

/-- C10: the non-Windows fallback samplers always succeed with bounded
values: CPU and network in `[0, 99]` for every `rand()` value, and memory
is the constant 50. -/
theorem fallback_samplers_bounded (r : ℕ) :
    getCPULoadFallback r ≤ 99 ∧ getNetworkUsageFallback r ≤ 99 ∧
    getMemoryUsageFallback = 50 := by
  refine ⟨?_, ?_, rfl⟩ <;>
    exact Nat.lt_succ_iff.mp (Nat.mod_lt _ (by norm_num))
